import Mathlib

/-!
Verification of the Figma design-file extraction service
(`src/app/services/figma.service.ts`) and the connection persistence
service (`src/app/services/connection-persistence.service.ts`).

The TypeScript code is shallowly embedded: pure data transformations
become Lean functions, the browser `localStorage` slot becomes an
explicit `Option (List Nat)` state threaded through the persistence
operations, and JavaScript strings that flow through `btoa`/`atob`
are modelled as lists of UTF-16 code units (`List Nat`).  HTTP
responses are supplied by explicit oracle parameters, and fallible
calls return `Option`/`Except`.
-/

namespace DsCopilot

/-! ## Generic JavaScript string helpers -/

/-- Code units of a Lean string literal (all our literals are ASCII, where
UTF-16 code units and Unicode code points coincide). -/
def str2codes (s : String) : List Nat := s.data.map Char.toNat

/-- Decides whether the first list is a prefix of the second
(JavaScript `String.prototype.startsWith` on the underlying characters). -/
def startsWithList : List Char → List Char → Bool
  | [], _ => true
  | _ :: _, [] => false
  | p :: ps, c :: cs => p == c && startsWithList ps cs

/-- JavaScript `String.prototype.trim`: strip leading and trailing whitespace. -/
def jsTrim (s : String) : String :=
  ⟨((s.data.dropWhile Char.isWhitespace).reverse.dropWhile Char.isWhitespace).reverse⟩

/-- JavaScript truthiness of a string: the empty string is falsy. -/
def jsStrTruthy (s : String) : Bool := !(s.data.isEmpty)

/-! ## Thumbnail Batcher (`getImages`, `getImagesBatch`, `validateUrlLength`) -/

structure FigmaCredentials where
  accessToken : String
  fileId : String
deriving DecidableEq

/-- The filter applied to node IDs in `getImages` (figma.service.ts line 117):
`id && id.trim() && id !== 'undefined' && id !== 'null' && !id.startsWith('I')`. -/
def isValidNodeId (id : String) : Bool :=
  jsStrTruthy id && jsStrTruthy (jsTrim id) &&
  !(id == "undefined") && !(id == "null") &&
  !(startsWithList (("I").data) id.data)

/-- Maximum of 50 node IDs per request (figma.service.ts line 114). -/
def BATCH_SIZE : Nat := 50

/-- Conservative URL length limit (figma.service.ts line 193). -/
def MAX_URL_LENGTH : Nat := 2048

/-- `validateUrlLength` (figma.service.ts lines 192-201). -/
def validateUrlLength (url : String) : Bool :=
  if url.length > MAX_URL_LENGTH then false else true

/-- The image-request URL built in `getImagesBatch` (line 166):
`${FIGMA_API_BASE}/images/${fileId}?ids=${ids}&format=png&scale=2`.
`apiBase` abstracts `FIGMA_API_BASE`, which depends on the deploy host. -/
def imageBatchUrl (apiBase : String) (credentials : FigmaCredentials)
    (nodeIds : List String) : String :=
  apiBase ++ "/images/" ++ credentials.fileId ++ "?ids=" ++
    String.intercalate (",") nodeIds ++ "&format=png&scale=2"

/-- The batch-splitting loop of `getImages` (lines 131-134):
`for (let i = 0; i < n; i += BATCH_SIZE) batches.push(slice(i, i + BATCH_SIZE))`.
`fuel` bounds the loop; it is instantiated with the list length, which the
loop never exceeds. -/
def chunkGo (n : Nat) : Nat → List α → List (List α)
  | _, [] => []
  | 0, _ :: _ => []
  | fuel + 1, x :: xs => (x :: xs.take (n - 1)) :: chunkGo n fuel (xs.drop (n - 1))

/-- Split a list into consecutive chunks of at most `n` elements. -/
def chunkList (n : Nat) (l : List α) : List (List α) := chunkGo n l.length l

/-- The batches computed by `getImages` from its input: invalid IDs are
filtered out, then the survivors are split into batches of at most 50.
One `getImagesBatch` request is issued per element of this list. -/
def getImagesBatches (nodeIds : List String) : List (List String) :=
  chunkList BATCH_SIZE (nodeIds.filter isValidNodeId)

/-- `getImagesBatch` (lines 163-187).  The HTTP layer is abstracted by the
oracle `urlOf`, modelling a successful Figma images response, which maps
every requested node ID to its rendered image URL; the response object is
an association list.  A batch whose URL fails `validateUrlLength` is
skipped and contributes an empty mapping instead (line 169-172). -/
def getImagesBatch (apiBase : String) (urlOf : String → String)
    (credentials : FigmaCredentials) (nodeIds : List String) :
    List (String × String) :=
  if validateUrlLength (imageBatchUrl apiBase credentials nodeIds) then
    nodeIds.map (fun i => (i, urlOf i))
  else []

/-- `getImages` (lines 113-158): filter invalid IDs, return `{}` when none
survive, otherwise split into batches, issue one `getImagesBatch` per batch
and merge the responses with `Object.assign` (modelled by list
concatenation of the association lists, in batch order). -/
def getImages (apiBase : String) (urlOf : String → String)
    (credentials : FigmaCredentials) (nodeIds : List String) :
    List (String × String) :=
  let validNodeIds := nodeIds.filter isValidNodeId
  if validNodeIds.isEmpty then []
  else ((chunkList BATCH_SIZE validNodeIds).map
    (getImagesBatch apiBase urlOf credentials)).flatten

/-- Concrete node-ID lists used to witness the batching claims. -/
def mkIds (n : Nat) : List String := (List.range n).map (fun i => ("n") ++ Nat.repr i)

/-- Credentials used in witnesses. -/
def sampleCredentials : FigmaCredentials := { accessToken := "t", fileId := "f" }

/-! ## Color normalization (`rgbaToHex`) -/

structure FigmaColor where
  r : ℚ
  g : ℚ
  b : ℚ
  a : ℚ
deriving DecidableEq

/-- JavaScript `Math.round` on the (nonnegative) values arising from
`channel * 255`: round half up. -/
def jsRound (q : ℚ) : ℤ := ⌊q + 1 / 2⌋

/-- Lowercase hexadecimal digit character for `d < 16`, as produced by
JavaScript `Number.prototype.toString(16)`. -/
def hexDigitChar (d : Nat) : Char :=
  if d < 10 then Char.ofNat (48 + d) else Char.ofNat (87 + d)

/-- JavaScript `n.toString(16)` for `n ≤ 255`: one or two lowercase hex
digits, no leading zero. -/
def jsToStringBase16 (n : Nat) : List Char :=
  if n < 16 then [hexDigitChar n] else [hexDigitChar (n / 16 % 16), hexDigitChar (n % 16)]

/-- JavaScript `.padStart(2, '0')`. -/
def padStart2 (s : List Char) : List Char := List.replicate (2 - s.length) '0' ++ s

/-- `rgbaToHex` (figma.service.ts lines 1078-1084): each channel is rounded
to `0..255` and rendered as two zero-padded lowercase hex digits; the alpha
channel of the color is never read.  `Int.toNat` is harmless on the claimed
domain (channels in `[0,1]`), where the rounded value is nonnegative. -/
def rgbaToHex (color : FigmaColor) : String :=
  let r := (jsRound (color.r * 255)).toNat
  let g := (jsRound (color.g * 255)).toNat
  let b := (jsRound (color.b * 255)).toNat
  "#" ++ ⟨padStart2 (jsToStringBase16 r)⟩ ++ ⟨padStart2 (jsToStringBase16 g)⟩ ++
    ⟨padStart2 (jsToStringBase16 b)⟩

/-- Specification-side rendering of a byte as exactly two lowercase
zero-padded hex digits. -/
def specHexPair (n : Nat) : List Char := [hexDigitChar (n / 16 % 16), hexDigitChar (n % 16)]

/-- A character is a lowercase hexadecimal digit. -/
def isLowerHexDigit (c : Char) : Bool := decide (c ∈ ("0123456789abcdef").data)

/-- The list is exactly two lowercase hexadecimal digit characters. -/
def isLowerHexPair (s : List Char) : Bool := s.length == 2 && s.all isLowerHexDigit

/-! ## The document tree (`FigmaNode`) and artboard extraction -/

structure FigmaRectangle where
  x : ℚ
  y : ℚ
  width : ℚ
  height : ℚ
deriving DecidableEq

/-- A paint object as read by `extractBackgroundColor`: only the `type`
discriminator and the optional solid color are consulted. -/
structure FigmaFill where
  type : String
  color : Option FigmaColor
deriving DecidableEq

/-- The recursive document-tree node (figma.interface.ts), restricted to the
fields the verified extraction routines read.  `children` and `fills` are
`Option`s because the corresponding JSON fields may be absent. -/
inductive FigmaNode where
  | mk (id name type : String) (absoluteBoundingBox : Option FigmaRectangle)
       (backgroundColor : Option FigmaColor) (fills : Option (List FigmaFill))
       (children : Option (List FigmaNode)) : FigmaNode

def FigmaNode.id : FigmaNode → String
  | .mk i _ _ _ _ _ _ => i

def FigmaNode.name : FigmaNode → String
  | .mk _ n _ _ _ _ _ => n

def FigmaNode.type : FigmaNode → String
  | .mk _ _ t _ _ _ _ => t

def FigmaNode.absoluteBoundingBox : FigmaNode → Option FigmaRectangle
  | .mk _ _ _ bb _ _ _ => bb

def FigmaNode.backgroundColor : FigmaNode → Option FigmaColor
  | .mk _ _ _ _ bg _ _ => bg

def FigmaNode.fills : FigmaNode → Option (List FigmaFill)
  | .mk _ _ _ _ _ f _ => f

def FigmaNode.children : FigmaNode → Option (List FigmaNode)
  | .mk _ _ _ _ _ _ c => c

structure ProcessedArtboard where
  id : String
  name : String
  imageUrl : String
  width : ℚ
  height : ℚ
  backgroundColor : Option String
deriving DecidableEq

/-- `extractBackgroundColor` (figma.service.ts lines 1060-1073): prefer the
node's `backgroundColor`, else the solid color of the first fill, else
`undefined`. -/
def extractBackgroundColor (node : FigmaNode) : Option String :=
  match node.backgroundColor with
  | some c => some (rgbaToHex c)
  | none =>
    match node.fills with
    | some (fill :: _) =>
      if fill.type == "SOLID" then
        match fill.color with
        | some c => some (rgbaToHex c)
        | none => none
      else none
    | _ => none

/-- The node predicate of `extractArtboards` (line 879):
`currentNode.type === 'FRAME' && currentNode.absoluteBoundingBox`. -/
def isArtboardNode (n : FigmaNode) : Bool :=
  n.type == "FRAME" && n.absoluteBoundingBox.isSome

/-- The `ProcessedArtboard` pushed for a matching node (lines 880-887).
The bounding box is only read when present; the `none` branch is dead on
nodes satisfying `isArtboardNode`. -/
def toProcessedArtboard (n : FigmaNode) : ProcessedArtboard :=
  { id := n.id
    name := n.name
    imageUrl := ""
    width := (match n.absoluteBoundingBox with | some b => b.width | none => 0)
    height := (match n.absoluteBoundingBox with | some b => b.height | none => 0)
    backgroundColor := extractBackgroundColor n }

mutual
/-- `extractArtboards` (figma.service.ts lines 875-897): depth-first
preorder traversal collecting every FRAME node that carries a bounding box. -/
def extractArtboards : FigmaNode → List ProcessedArtboard
  | .mk i nm ty bb bg fl cs =>
    (if isArtboardNode (.mk i nm ty bb bg fl cs) then
       [toProcessedArtboard (.mk i nm ty bb bg fl cs)]
     else []) ++
    (match cs with
     | none => []
     | some l => extractArtboardsList l)

def extractArtboardsList : List FigmaNode → List ProcessedArtboard
  | [] => []
  | c :: cs => extractArtboards c ++ extractArtboardsList cs
end

mutual
/-- Preorder enumeration of all nodes of a tree, used to quantify over
"every node of the design file". -/
def nodesOf : FigmaNode → List FigmaNode
  | .mk i nm ty bb bg fl cs =>
    .mk i nm ty bb bg fl cs ::
    (match cs with
     | none => []
     | some l => nodesOfList l)

def nodesOfList : List FigmaNode → List FigmaNode
  | [] => []
  | c :: cs => nodesOf c ++ nodesOfList cs
end

/-! ## Components (`extractComponents`, `extractComponentsFromNodes`) -/

structure FigmaDocumentationLink where
  uri : String
deriving DecidableEq

structure ComponentProperty where
  name : String
  type : String
  defaultValue : Option String
  variantOptions : Option (List String)
deriving DecidableEq

structure ComponentVariant where
  id : String
  name : String
  properties : List ComponentProperty
deriving DecidableEq

/-- The normalized component record (figma.interface.ts `FigmaComponent`). -/
structure FigmaComponent where
  key : String
  name : String
  description : String
  documentationLinks : List FigmaDocumentationLink
  id : Option String
  thumbnail : Option String
  variants : Option (List ComponentVariant)
  properties : Option (List ComponentProperty)
deriving DecidableEq

/-- A raw component object of the dedicated components endpoint, as read by
`extractComponents` (lines 977-988): `key`, `name`, optional `description`
and optional `documentation_links`. -/
structure ApiComponent where
  key : String
  name : String
  description : Option String
  documentation_links : Option (List FigmaDocumentationLink)
deriving DecidableEq

/-- The push of one endpoint component into the result list
(figma.service.ts lines 978-987). -/
def apiComponentToFigmaComponent (c : ApiComponent) : FigmaComponent :=
  { key := c.key
    name := c.name
    description := c.description.getD ("")
    documentationLinks := c.documentation_links.getD []
    id := some c.key
    thumbnail := some ("")
    variants := some []
    properties := some [] }

/-- The `meta.components` layer of the components endpoint response; each
`Option` models a possibly-absent JSON field (the `componentsData &&
componentsData.meta && componentsData.meta.components` truthiness chain). -/
structure ComponentsMeta where
  components : Option (List ApiComponent)

structure ComponentsApiResponse where
  meta : Option ComponentsMeta

mutual
/-- `extractComponentsFromNodes` (figma.service.ts lines 532-565): traverse
the tree and record every COMPONENT / COMPONENT_SET node. -/
def extractComponentsFromNodes : FigmaNode → List FigmaComponent
  | .mk i nm ty _bb _bg _fl cs =>
    (if ty == "COMPONENT" || ty == "COMPONENT_SET" then
       [{ key := i
          name := nm
          description := ""
          documentationLinks := []
          id := some i
          thumbnail := some ("")
          variants := if ty == "COMPONENT_SET" then some [] else none
          properties := some [] }]
     else []) ++
    (match cs with
     | none => []
     | some l => extractComponentsFromNodesList l)

def extractComponentsFromNodesList : List FigmaNode → List FigmaComponent
  | [] => []
  | c :: cs => extractComponentsFromNodes c ++ extractComponentsFromNodesList cs
end

/-- The merge loop of `extractComponents` (lines 993-1000): append each
tree-discovered component unless a component with the same key is already
present. -/
def mergeNodeComponents (components : List FigmaComponent)
    (nodeComponents : List FigmaComponent) : List FigmaComponent :=
  nodeComponents.foldl
    (fun acc nodeComponent =>
      if acc.any (fun c => c.key == nodeComponent.key) then acc
      else acc ++ [nodeComponent])
    components

/-- The file-level response shape consumed by the extraction routines. -/
structure FigmaFileResponse where
  document : FigmaNode
  name : String
  lastModified : String
  thumbnailUrl : String
  version : String

/-- `extractComponents` (figma.service.ts lines 970-1004): components from
the dedicated endpoint first, then tree-discovered components deduplicated
by key, first occurrence winning. -/
def extractComponents (componentsData : Option ComponentsApiResponse)
    (fileData : FigmaFileResponse) : List FigmaComponent :=
  let apiComponents : List FigmaComponent :=
    match componentsData with
    | some d =>
      match d.meta with
      | some m =>
        match m.components with
        | some cs => cs.map apiComponentToFigmaComponent
        | none => []
      | none => []
    | none => []
  mergeNodeComponents apiComponents (extractComponentsFromNodes fileData.document)

/-! ## Typography normalization (`extractTextValue`) -/

/-- The typography-relevant fields probed on one style-shaped object.
`Option` models JSON field absence. -/
structure TextStyleFields where
  fontFamily : Option String
  fontSize : Option ℚ
  fontWeight : Option ℚ
  lineHeightPx : Option ℚ
deriving DecidableEq

/-- A style argument of `extractTextValue`: fields may sit directly on the
object, nested under `style`, or nested under `typeStyle`. -/
structure StyleObj where
  direct : TextStyleFields
  style : Option TextStyleFields
  typeStyle : Option TextStyleFields
deriving DecidableEq

/-- JavaScript truthiness of a possibly-absent string field. -/
def truthyStr : Option String → Bool
  | none => false
  | some s => !(s.data.isEmpty)

/-- JavaScript truthiness of a possibly-absent numeric field (0 is falsy). -/
def truthyNum : Option ℚ → Bool
  | none => false
  | some q => !(q == 0)

/-- The strategy guard `style.fontFamily || style.fontSize || style.fontWeight`. -/
def hasTypoFields (f : TextStyleFields) : Bool :=
  truthyStr f.fontFamily || truthyNum f.fontSize || truthyNum f.fontWeight

/-- Rendering of a JavaScript number in a template literal.  Integral
values print as in JavaScript; non-integral rationals are printed as
fractions, a deviation that no theorem below depends on. -/
def jsNumToString (q : ℚ) : String :=
  if q.den = 1 then toString q.num else toString q

/-- The shorthand string built by each successful strategy of
`extractTextValue` (lines 1128-1132): defaults Arial / 16 / 400 via `||`,
line-height from `lineHeightPx` when truthy, else `normal`. -/
def renderTypography (f : TextStyleFields) : String :=
  let fontFamily := match f.fontFamily with
    | some s => if s.data.isEmpty then "Arial" else s
    | none => "Arial"
  let fontSize := match f.fontSize with
    | some q => if q == 0 then (16 : ℚ) else q
    | none => 16
  let fontWeight := match f.fontWeight with
    | some q => if q == 0 then (400 : ℚ) else q
    | none => 400
  let lineHeight := match f.lineHeightPx with
    | some q => if q == 0 then "normal" else jsNumToString q ++ "px"
    | none => "normal"
  "font-family: \"" ++ fontFamily ++ "\"; font-size: " ++ jsNumToString fontSize ++
    "px; font-weight: " ++ jsNumToString fontWeight ++ "; line-height: " ++
    lineHeight ++ ";"

/-- `extractTextValue` (figma.service.ts lines 1125-1159): try direct
fields, then the `style` nesting, then the `typeStyle` nesting, and fall
back to the fixed string `'font-family: Arial; font-size: 16px;'`. -/
def extractTextValue (s : StyleObj) : String :=
  if hasTypoFields s.direct then renderTypography s.direct
  else
    match s.style with
    | some st =>
      if hasTypoFields st then renderTypography st
      else
        match s.typeStyle with
        | some ts => if hasTypoFields ts then renderTypography ts
                     else "font-family: Arial; font-size: 16px;"
        | none => "font-family: Arial; font-size: 16px;"
    | none =>
      match s.typeStyle with
      | some ts => if hasTypoFields ts then renderTypography ts
                   else "font-family: Arial; font-size: 16px;"
      | none => "font-family: Arial; font-size: 16px;"

/-- The canonical shorthand the specification describes for an all-absent
style: defaults Arial, 16px, 400, line-height normal rendered through the
documented template.  Built from the specification's words, for comparison
with what the code returns. -/
def specCanonicalDefaultTypography : String :=
  "font-family: \"Arial\"; font-size: 16px; font-weight: 400; line-height: normal;"

/-- A style object with no recognizable fields anywhere. -/
def emptyStyleObj : StyleObj :=
  { direct := { fontFamily := none, fontSize := none, fontWeight := none, lineHeightPx := none }
    style := none
    typeStyle := none }

/-! ## Page artboards (`findPageById`, `fetchPageArtboards`) -/

/-- The normalized `{message, status}` error shape every API failure is
reduced to before propagation. -/
structure FigmaApiError where
  message : String
  status : ℤ
deriving DecidableEq

/-- The page-scoped artboard record (figma.interface.ts `Artboard`). -/
structure Artboard where
  id : String
  name : String
  type : String
  thumbnail : String
  absoluteBoundingBox : FigmaRectangle
deriving DecidableEq

mutual
/-- `findPageById` (figma.service.ts lines 407-422): depth-first search for
a node with the given id. -/
def findPageById : FigmaNode → String → Option FigmaNode
  | .mk i nm ty bb bg fl cs, pageId =>
    if i == pageId then some (.mk i nm ty bb bg fl cs)
    else
      match cs with
      | none => none
      | some l => findPageByIdList l pageId

def findPageByIdList : List FigmaNode → String → Option FigmaNode
  | [], _ => none
  | c :: cs, pageId =>
    match findPageById c pageId with
    | some found => some found
    | none => findPageByIdList cs pageId
end

/-- `fetchPageArtboards` (figma.service.ts lines 346-402).  The two network
suspensions are abstracted by their settled results: `fileResult` is the
outcome of `getFileData` and `imagesResult` the outcome of the `getImages`
call (consulted only when at least one artboard is found).  The trailing
`catchError(... of([]))` makes every error path resolve to `[]`. -/
def fetchPageArtboards (fileResult : Except FigmaApiError FigmaFileResponse)
    (imagesResult : Except FigmaApiError (List (String × String)))
    (pageId : String) : Except FigmaApiError (List Artboard) :=
  match fileResult with
  | .error _ => .ok []
  | .ok fileData =>
    match findPageById fileData.document pageId with
    | none => .ok []
    | some page =>
      match page.children with
      | none => .ok []
      | some children =>
        let artboards : List Artboard := children.filterMap (fun child =>
          if child.type == "FRAME" then
            match child.absoluteBoundingBox with
            | some box =>
              some { id := child.id
                     name := child.name
                     type := "FRAME"
                     thumbnail := ""
                     absoluteBoundingBox :=
                       { x := box.x, y := box.y, width := box.width, height := box.height } }
            | none => none
          else none)
        if artboards.length > 0 then
          match imagesResult with
          | .error _ => .ok []
          | .ok images =>
            .ok (artboards.map (fun artboard =>
              { artboard with
                  thumbnail := ((images.find? (fun p => p.1 == artboard.id)).map Prod.snd).getD ("") }))
        else .ok artboards

/-! ## Connection persistence (`connection-persistence.service.ts`)

JavaScript strings crossing `btoa`/`atob` are modelled as lists of UTF-16
code units; the single `localStorage` slot is an `Option (List Nat)`. -/

/-- The XOR key `'figma-ds-copilot-encrypt'` (line 9). -/
def ENCRYPTION_KEY : String := "figma-ds-copilot-encrypt"

def encryptionKeyCodes : List Nat := str2codes ENCRYPTION_KEY

/-- The XOR loop of `encryptData`/`decryptData` (lines 110-112, 125-127):
code unit `i` is XORed with `key.charCodeAt(i % key.length)`. -/
def xorWithKeyAux (key : List Nat) : Nat → List Nat → List Nat
  | _, [] => []
  | i, c :: cs => (c ^^^ (key.get? (i % key.length)).getD 0) :: xorWithKeyAux key (i + 1) cs

def xorWithKey (key : List Nat) (data : List Nat) : List Nat := xorWithKeyAux key 0 data

/-- Code unit of the base64 alphabet character for a 6-bit value. -/
def b64Char (n : Nat) : Nat :=
  if n < 26 then 65 + n
  else if n < 52 then 97 + (n - 26)
  else if n < 62 then 48 + (n - 52)
  else if n = 62 then 43
  else 47

/-- Inverse of `b64Char`; `none` on characters outside the alphabet
(including the padding character `'='`). -/
def b64DecodeChar (c : Nat) : Option Nat :=
  if 65 ≤ c && c ≤ 90 then some (c - 65)
  else if 97 ≤ c && c ≤ 122 then some (c - 97 + 26)
  else if 48 ≤ c && c ≤ 57 then some (c - 48 + 52)
  else if c = 43 then some 62
  else if c = 47 then some 63
  else none

/-- Base64 encoding of a byte list (the body of the browser `btoa`). -/
def b64Encode : List Nat → List Nat
  | [] => []
  | [x] => [b64Char (x / 4), b64Char (x % 4 * 16), 61, 61]
  | [x, y] => [b64Char (x / 4), b64Char (x % 4 * 16 + y / 16), b64Char (y % 16 * 4), 61]
  | x :: y :: z :: rest =>
    b64Char (x / 4) :: b64Char (x % 4 * 16 + y / 16) ::
    b64Char (y % 16 * 4 + z / 64) :: b64Char (z % 64) :: b64Encode rest

/-- Base64 decoding (the browser `atob`): groups of four alphabet
characters, with `'='` padding allowed only in the final group. -/
def b64Decode : List Nat → Option (List Nat)
  | [] => some []
  | a :: b :: c :: d :: rest =>
    if rest.isEmpty && d == 61 then
      if c == 61 then
        (b64DecodeChar a).bind fun va =>
        (b64DecodeChar b).map fun vb => [va * 4 + vb / 16]
      else
        (b64DecodeChar a).bind fun va =>
        (b64DecodeChar b).bind fun vb =>
        (b64DecodeChar c).map fun vc => [va * 4 + vb / 16, vb % 16 * 16 + vc / 4]
    else
      (b64DecodeChar a).bind fun va =>
      (b64DecodeChar b).bind fun vb =>
      (b64DecodeChar c).bind fun vc =>
      (b64DecodeChar d).bind fun vd =>
      (b64Decode rest).map fun tail =>
        (va * 4 + vb / 16) :: (vb % 16 * 16 + vc / 4) :: (vc % 4 * 64 + vd) :: tail
  | _ => none

/-- The browser `btoa`: fails (throws `InvalidCharacterError`) when any
code unit lies outside the Latin-1 range. -/
def jsBtoa (s : List Nat) : Option (List Nat) :=
  if s.all (fun c => c < 256) then some (b64Encode s) else none

/-- The browser `atob` on the well-formed outputs `btoa` produces. -/
def jsAtob (s : List Nat) : Option (List Nat) := b64Decode s

/-- `encryptData` (lines 106-115): XOR with the key, then `btoa`.  A `none`
result models the exception `btoa` raises on non-Latin-1 data. -/
def encryptData (data : List Nat) : Option (List Nat) :=
  jsBtoa (xorWithKey encryptionKeyCodes data)

/-- `decryptData` (lines 120-130): `atob`, then XOR with the key. -/
def decryptData (encryptedData : List Nat) : Option (List Nat) :=
  (jsAtob encryptedData).map (xorWithKey encryptionKeyCodes)

/-! ### The stored connection record and its JSON serialization -/

inductive ConnectionType where
  | figma
  | mcp
deriving DecidableEq

def ConnectionType.toCodes : ConnectionType → List Nat
  | .figma => str2codes ("figma")
  | .mcp => str2codes ("mcp")

/-- The credentials union `FigmaCredentials | MCPCredentials`
(figma.interface.ts lines 1-10), with string payloads as code-unit lists. -/
inductive StoredCredentials where
  | figma (accessToken fileId : List Nat)
  | mcp (serverUrl : List Nat) (apiKey : Option (List Nat)) (projectId : List Nat)
deriving DecidableEq

structure ConnFileInfo where
  name : List Nat
  lastModified : List Nat
  version : List Nat
deriving DecidableEq

/-- `StoredConnection` (figma.interface.ts lines 12-18). -/
structure StoredConnection where
  connectionType : ConnectionType
  credentials : StoredCredentials
  fileInfo : ConnFileInfo
  lastConnected : List Nat
  isValid : Bool
deriving DecidableEq

/-- Lowercase hex digit code for `d < 16` (used by `\u00XX` escapes). -/
def hexDigitCode (d : Nat) : Nat := if d < 10 then 48 + d else 87 + d

/-- `JSON.stringify` escaping of one string code unit.  The ES2019
lone-surrogate escaping is not modelled; no theorem below evaluates the
serializer on surrogate code units. -/
def escapeJsonChar (c : Nat) : List Nat :=
  if c = 34 then [92, 34]
  else if c = 92 then [92, 92]
  else if c = 8 then [92, 98]
  else if c = 9 then [92, 116]
  else if c = 10 then [92, 110]
  else if c = 12 then [92, 102]
  else if c = 13 then [92, 114]
  else if c < 32 then [92, 117, 48, 48, hexDigitCode (c / 16), hexDigitCode (c % 16)]
  else [c]

def escapeJson (s : List Nat) : List Nat := (s.map escapeJsonChar).flatten

/-- A JSON string literal: quote, escaped content, quote. -/
def quoteJson (s : List Nat) : List Nat := 34 :: escapeJson s ++ [34]

/-! JSON punctuation fragments of the serialized `StoredConnection`
(object braces written via `\x7b`/`\x7d` escapes).  Each fragment ends just
before a value; string values are written/read through `quoteJson`/`pString`. -/

def litConnectionType : List Nat := str2codes ("\x7b\"connectionType\":")
def litCredentials : List Nat := str2codes (",\"credentials\":")
def litAccessToken : List Nat := str2codes ("\x7b\"accessToken\":")
def litFileId : List Nat := str2codes (",\"fileId\":")
def litServerUrl : List Nat := str2codes ("\x7b\"serverUrl\":")
def litApiKey : List Nat := str2codes (",\"apiKey\":")
def litProjectId : List Nat := str2codes (",\"projectId\":")
def litFileInfo : List Nat := str2codes (",\"fileInfo\":\x7b\"name\":")
def litLastModified : List Nat := str2codes (",\"lastModified\":")
def litVersion : List Nat := str2codes (",\"version\":")
def litLastConnected : List Nat := str2codes ("\x7d,\"lastConnected\":")
def litIsValid : List Nat := str2codes (",\"isValid\":")
def litTrue : List Nat := str2codes ("true")
def litFalse : List Nat := str2codes ("false")
def litObjClose : List Nat := str2codes ("\x7d")

/-- `JSON.stringify` of the credentials object, with insertion order as in
the interface; an absent optional `apiKey` is omitted. -/
def serializeCredentials : StoredCredentials → List Nat
  | .figma accessToken fileId =>
    litAccessToken ++ quoteJson accessToken ++ litFileId ++ quoteJson fileId ++ litObjClose
  | .mcp serverUrl apiKey projectId =>
    litServerUrl ++ quoteJson serverUrl ++
    (match apiKey with
     | some k => litApiKey ++ quoteJson k
     | none => []) ++
    litProjectId ++ quoteJson projectId ++ litObjClose

/-- `JSON.stringify(connection)`: key order is the insertion order of
`createStoredConnection` (connection-persistence.service.ts lines 94-100). -/
def serializeConn (c : StoredConnection) : List Nat :=
  litConnectionType ++ quoteJson c.connectionType.toCodes ++
  litCredentials ++ serializeCredentials c.credentials ++
  litFileInfo ++ quoteJson c.fileInfo.name ++
  litLastModified ++ quoteJson c.fileInfo.lastModified ++
  litVersion ++ quoteJson c.fileInfo.version ++
  litLastConnected ++ quoteJson c.lastConnected ++
  litIsValid ++ (if c.isValid then litTrue else litFalse) ++
  litObjClose

/-! ### `JSON.parse`, specialized to the serialized `StoredConnection` shape

`JSON.parse` is a platform builtin; this model parses exactly the texts the
serializer above produces (and their `\uXXXX`-escape variants).  JSON texts
of any other shape are modelled as parse failures. -/

/-- Decides whether `lit` is a prefix of `inp` (over code units). -/
def litMatches : List Nat → List Nat → Bool
  | [], _ => true
  | _ :: _, [] => false
  | p :: ps, c :: cs => p == c && litMatches ps cs

/-- Consume an exact literal fragment. -/
def pLit (lit inp : List Nat) : Option (List Nat) :=
  if litMatches lit inp then some (inp.drop lit.length) else none

/-- One-character JSON escapes. -/
def simpleEscape (e : Nat) : Option Nat :=
  if e = 34 then some 34
  else if e = 92 then some 92
  else if e = 47 then some 47
  else if e = 98 then some 8
  else if e = 116 then some 9
  else if e = 110 then some 10
  else if e = 102 then some 12
  else if e = 114 then some 13
  else none

/-- Value of a hexadecimal digit character. -/
def hexVal (c : Nat) : Option Nat :=
  if 48 ≤ c && c ≤ 57 then some (c - 48)
  else if 97 ≤ c && c ≤ 102 then some (c - 87)
  else if 65 ≤ c && c ≤ 70 then some (c - 55)
  else none

/-- Parse JSON string content up to the closing quote, decoding escapes. -/
def pStringAux : List Nat → Option (List Nat × List Nat)
  | [] => none
  | c :: rest =>
    if c = 34 then some ([], rest)
    else if c = 92 then
      match rest with
      | [] => none
      | e :: rest2 =>
        if e = 117 then
          match rest2 with
          | h1 :: h2 :: h3 :: h4 :: rest3 =>
            (hexVal h1).bind fun v1 =>
            (hexVal h2).bind fun v2 =>
            (hexVal h3).bind fun v3 =>
            (hexVal h4).bind fun v4 =>
            (pStringAux rest3).map fun p =>
              ((((v1 * 16 + v2) * 16 + v3) * 16 + v4) :: p.1, p.2)
          | _ => none
        else
          (simpleEscape e).bind fun v =>
          (pStringAux rest2).map fun p => (v :: p.1, p.2)
    else (pStringAux rest).map fun p => (c :: p.1, p.2)

/-- Parse a JSON string literal including its opening quote. -/
def pString (inp : List Nat) : Option (List Nat × List Nat) :=
  match inp with
  | 34 :: rest => pStringAux rest
  | _ => none

/-- Parse a JSON boolean. -/
def pBool (inp : List Nat) : Option (Bool × List Nat) :=
  match pLit litTrue inp with
  | some r => some (true, r)
  | none =>
    match pLit litFalse inp with
    | some r => some (false, r)
    | none => none

/-- Parse the credentials object (figma shape first, then mcp shape). -/
def parseCredentials (inp : List Nat) : Option (StoredCredentials × List Nat) :=
  match pLit litAccessToken inp with
  | some r1 => do
    let (accessToken, r2) ← pString r1
    let r3 ← pLit litFileId r2
    let (fileId, r4) ← pString r3
    let r5 ← pLit litObjClose r4
    return (.figma accessToken fileId, r5)
  | none => do
    let r1 ← pLit litServerUrl inp
    let (serverUrl, r2) ← pString r1
    match pLit litApiKey r2 with
    | some r3 => do
      let (apiKey, r4) ← pString r3
      let r5 ← pLit litProjectId r4
      let (projectId, r6) ← pString r5
      let r7 ← pLit litObjClose r6
      return (.mcp serverUrl (some apiKey) projectId, r7)
    | none => do
      let r3 ← pLit litProjectId r2
      let (projectId, r4) ← pString r3
      let r5 ← pLit litObjClose r4
      return (.mcp serverUrl none projectId, r5)

/-- Parse a full serialized `StoredConnection`, requiring the input to be
consumed entirely. -/
def parseConn (inp : List Nat) : Option StoredConnection := do
  let r1 ← pLit litConnectionType inp
  let (ct, r2) ← pString r1
  let connectionType ←
    if ct = str2codes ("figma") then some ConnectionType.figma
    else if ct = str2codes ("mcp") then some ConnectionType.mcp
    else none
  let r3 ← pLit litCredentials r2
  let (credentials, r4) ← parseCredentials r3
  let r5 ← pLit litFileInfo r4
  let (name, r6) ← pString r5
  let r7 ← pLit litLastModified r6
  let (lastModified, r8) ← pString r7
  let r9 ← pLit litVersion r8
  let (version, r10) ← pString r9
  let r11 ← pLit litLastConnected r10
  let (lastConnected, r12) ← pString r11
  let r13 ← pLit litIsValid r12
  let (isValid, r14) ← pBool r13
  let r15 ← pLit litObjClose r14
  if r15.isEmpty then
    some { connectionType := connectionType
           credentials := credentials
           fileInfo := { name := name, lastModified := lastModified, version := version }
           lastConnected := lastConnected
           isValid := isValid }
  else none

/-! ### The service operations over the `localStorage` slot -/

/-- The single `localStorage` slot under `STORAGE_KEY`: `none` when the key
is absent. -/
abbrev LocalStorage := Option (List Nat)

/-- `clearStoredConnection` (lines 47-53). -/
def clearStoredConnection (_ : LocalStorage) : LocalStorage := none

/-- `storeConnection` (lines 16-23): serialize, encrypt, write.  When
`encryptData` throws (non-Latin-1 data), the exception is caught and the
slot is left unchanged. -/
def storeConnection (connection : StoredConnection) (s : LocalStorage) : LocalStorage :=
  match encryptData (serializeConn connection) with
  | some encrypted => some encrypted
  | none => s

/-- `getStoredConnection` (lines 28-42): returns the parsed connection and
the possibly-modified slot.  A falsy stored value yields `null` without
clearing; a decryption or parse failure clears the slot (the
`catch` branch). -/
def getStoredConnection (s : LocalStorage) : Option StoredConnection × LocalStorage :=
  match s with
  | none => (none, none)
  | some encryptedData =>
    if encryptedData.isEmpty then (none, some encryptedData)
    else
      match decryptData encryptedData with
      | none => (none, clearStoredConnection (some encryptedData))
      | some decryptedData =>
        match parseConn decryptedData with
        | some connection => (some connection, some encryptedData)
        | none => (none, clearStoredConnection (some encryptedData))

/-- `hasValidStoredConnection` (lines 58-70): the stored validity flag AND
a last-connected timestamp under 7 days old.  `dateValue` abstracts
`new Date(string).getTime()` and `now` abstracts `new Date().getTime()`,
both in milliseconds. -/
def hasValidStoredConnection (dateValue : List Nat → ℚ) (now : ℚ)
    (s : LocalStorage) : Bool × LocalStorage :=
  let r := getStoredConnection s
  match r.1 with
  | none => (false, r.2)
  | some connection =>
    let daysDiff := (now - dateValue connection.lastConnected) / (1000 * 3600 * 24)
    (connection.isValid && decide (daysDiff < 7), r.2)

/-- `updateConnectionValidity` (lines 75-84): rewrite the stored record
with the new flag, refreshing `lastConnected` to the current time exactly
when invalidating.  `nowIso` abstracts `new Date().toISOString()`. -/
def updateConnectionValidity (isValid : Bool) (nowIso : List Nat)
    (s : LocalStorage) : LocalStorage :=
  let r := getStoredConnection s
  match r.1 with
  | none => r.2
  | some connection =>
    storeConnection
      { connection with
          isValid := isValid
          lastConnected := if isValid then connection.lastConnected else nowIso }
      r.2

/-- The record written back by `updateConnectionValidity` (lines 78-81):
the new flag, and a refreshed `lastConnected` exactly when invalidating. -/
def updatedConnection (c : StoredConnection) (isValid : Bool)
    (nowIso : List Nat) : StoredConnection :=
  { c with
      isValid := isValid
      lastConnected := if isValid then c.lastConnected else nowIso }

/-! ## Concrete sample data used by witnesses and counterexamples -/

def sampleFileInfo : ConnFileInfo :=
  { name := str2codes ("Design System")
    lastModified := str2codes ("2024-01-02T03:04:05.000Z")
    version := str2codes ("42") }

/-- An ordinary all-ASCII stored connection. -/
def sampleConnection : StoredConnection :=
  { connectionType := .figma
    credentials := .figma (str2codes ("tok-123")) (str2codes ("file-456"))
    fileInfo := sampleFileInfo
    lastConnected := str2codes ("2024-01-02T03:04:05.000Z")
    isValid := true }

/-- The slot after storing `sampleConnection` into empty storage. -/
def sampleStoredState : LocalStorage := storeConnection sampleConnection none

/-- A connection whose file name contains the code unit 0x0100 (`Ā`),
which lies outside the Latin-1 range `btoa` accepts. -/
def nonLatin1Connection : StoredConnection :=
  { sampleConnection with fileInfo := { sampleFileInfo with name := [256] } }

/-- A syntactically valid stored ciphertext whose JSON spells the file name
with the escape `\u0100`: it decrypts and parses fine, but the connection
it denotes cannot be re-serialized within Latin-1. -/
def tamperedJson : List Nat :=
  str2codes ("\x7b\"connectionType\":\"figma\",\"credentials\":\x7b\"accessToken\":\"\",\"fileId\":\"\"\x7d,\"fileInfo\":\x7b\"name\":\"\\u0100\",\"lastModified\":\"\",\"version\":\"\"\x7d,\"lastConnected\":\"\",\"isValid\":true\x7d")

def tamperedState : LocalStorage :=
  some (b64Encode (xorWithKey encryptionKeyCodes tamperedJson))

/-- The connection denoted by `tamperedJson`. -/
def tamperedConnection : StoredConnection :=
  { connectionType := .figma
    credentials := .figma [] []
    fileInfo := { name := [256], lastModified := [], version := [] }
    lastConnected := []
    isValid := true }

/-- An ISO timestamp standing in for `new Date().toISOString()`. -/
def sampleNowIso : List Nat := str2codes ("2024-02-03T00:00:00.000Z")

/-- A FRAME node without a bounding box (not a valid artboard). -/
def witnessChildNode : FigmaNode :=
  .mk ("frame-no-box") ("Frame without box") ("FRAME") none none none none

/-- A FRAME root with a bounding box and one boxless FRAME child. -/
def witnessRootNode : FigmaNode :=
  .mk ("frame-root") ("Frame with box") ("FRAME") (some ⟨0, 0, 100, 200⟩) none none
    (some [witnessChildNode])

/-- A COMPONENT node sharing its key with the endpoint component below. -/
def witnessComponentNode : FigmaNode :=
  .mk ("key-1") ("Button") ("COMPONENT") none none none none

def witnessComponentsFile : FigmaFileResponse :=
  { document := .mk ("0:0") ("Document") ("DOCUMENT") none none none
      (some [witnessComponentNode])
    name := "File"
    lastModified := "2024-01-01"
    thumbnailUrl := ""
    version := "1" }

def witnessApiComponents : List ApiComponent :=
  [{ key := "key-1"
     name := "Button"
     description := some ("from the dedicated endpoint")
     documentation_links := none }]

def sampleApiError : FigmaApiError := { message := "Network error", status := 0 }

/-! ## Batching lemmas -/

theorem chunkGo_length_50 : ∀ (fuel : Nat) (l : List α), l.length ≤ fuel →
    (chunkGo 50 fuel l).length = (l.length + 49) / 50
  | _, [], _ => by simp [chunkGo]
  | 0, _ :: _, h => by simp at h
  | fuel + 1, x :: xs, h => by
    have ih := chunkGo_length_50 fuel (xs.drop 49)
      (by simp only [List.length_drop]; simp at h; omega)
    simp only [chunkGo, List.length_cons, ih, List.length_drop]
    omega

theorem chunkGo_flatten_50 : ∀ (fuel : Nat) (l : List α), l.length ≤ fuel →
    (chunkGo 50 fuel l).flatten = l
  | _, [], _ => by simp [chunkGo]
  | 0, _ :: _, h => by simp at h
  | fuel + 1, x :: xs, h => by
    have ih := chunkGo_flatten_50 fuel (xs.drop 49)
      (by simp only [List.length_drop]; simp at h; omega)
    simp only [chunkGo, List.flatten_cons, ih, List.cons_append, List.take_append_drop]

theorem chunkList_50_length (l : List α) :
    (chunkList 50 l).length = (l.length + 49) / 50 :=
  chunkGo_length_50 l.length l le_rfl

theorem chunkList_50_flatten (l : List α) : (chunkList 50 l).flatten = l :=
  chunkGo_flatten_50 l.length l le_rfl

theorem getImages_map_fst (apiBase : String) (urlOf : String → String)
    (credentials : FigmaCredentials) (nodeIds : List String)
    (hurl : ∀ b ∈ getImagesBatches nodeIds,
      validateUrlLength (imageBatchUrl apiBase credentials b) = true) :
    (getImages apiBase urlOf credentials nodeIds).map Prod.fst =
      nodeIds.filter isValidNodeId := by
  unfold getImages
  by_cases he : (nodeIds.filter isValidNodeId).isEmpty
  · simp only [he, if_pos]
    rw [List.isEmpty_iff] at he
    simp [he]
  · simp only [he, Bool.false_eq_true, if_false]
    have hbatch : ∀ b ∈ chunkList BATCH_SIZE (nodeIds.filter isValidNodeId),
        getImagesBatch apiBase urlOf credentials b = b.map (fun i => (i, urlOf i)) := by
      intro b hb
      unfold getImagesBatch
      rw [hurl b hb]
      simp
    rw [List.map_congr_left hbatch, List.map_flatten, List.map_map]
    have hcomp : (List.map Prod.fst ∘ fun b : List String =>
        b.map (fun i => (i, urlOf i))) = id := by
      funext b
      rw [Function.comp_apply, List.map_map]
      exact List.map_id' b
    rw [hcomp, List.map_id]
    exact chunkList_50_flatten _

/-- C1: for every node-ID list, `getImages` issues exactly
`ceil(N / 50)` batch requests, where `N` counts the IDs surviving the
validity filter, and (when no batch is skipped for URL length) the key set
of the merged image mapping equals the set of filtered IDs — equivalently,
the filtered-and-deduplicated input set.  With 50 surviving IDs this gives
exactly one request and with 51 exactly two. -/
theorem getImages_batch_count_and_keys (apiBase : String) (urlOf : String → String)
    (credentials : FigmaCredentials) (nodeIds : List String)
    (hurl : ∀ b ∈ getImagesBatches nodeIds,
      validateUrlLength (imageBatchUrl apiBase credentials b) = true) :
    (getImagesBatches nodeIds).length = ((nodeIds.filter isValidNodeId).length + 49) / 50 ∧
    ∀ k, (k ∈ (getImages apiBase urlOf credentials nodeIds).map Prod.fst ↔
      k ∈ nodeIds.filter isValidNodeId) := by
  refine ⟨chunkList_50_length _, fun k => ?_⟩
  rw [getImages_map_fst apiBase urlOf credentials nodeIds hurl]

set_option maxRecDepth 8000 in
/-- Witness for C1 at concrete inputs: 51 distinct valid IDs pass the URL
check and produce exactly 2 batch requests; 50 produce exactly 1. -/
theorem getImages_batch_count_and_keys_witness :
    (∀ b ∈ getImagesBatches (mkIds 51),
      validateUrlLength (imageBatchUrl ("") sampleCredentials b) = true) ∧
    (getImagesBatches (mkIds 50)).length = 1 ∧
    (getImagesBatches (mkIds 51)).length = 2 := by
  refine ⟨by decide, ?_, ?_⟩
  · rw [(getImages_batch_count_and_keys ("") (fun _ => "") sampleCredentials (mkIds 50)
      (by decide)).1]
    decide
  · rw [(getImages_batch_count_and_keys ("") (fun _ => "") sampleCredentials (mkIds 51)
      (by decide)).1]
    decide

/-- C8: when every input node ID is filtered out (empty, placeholder, or
instance-prefixed), `getImages` returns the empty mapping and issues zero
batch requests. -/
theorem getImages_empty_after_filter (apiBase : String) (urlOf : String → String)
    (credentials : FigmaCredentials) (nodeIds : List String)
    (h : nodeIds.filter isValidNodeId = []) :
    getImages apiBase urlOf credentials nodeIds = [] ∧
    getImagesBatches nodeIds = [] := by
  constructor
  · unfold getImages
    simp [h]
  · unfold getImagesBatches chunkList
    rw [h]
    rfl

/-- Witness for C8: a list of empty, placeholder and instance-prefixed IDs
filters to nothing and yields the empty mapping with zero batches. -/
theorem getImages_empty_after_filter_witness :
    (["", "undefined", "null", "I123:4", "   "].filter isValidNodeId = []) ∧
    getImages ("") (fun _ => "") sampleCredentials ["", "undefined", "null", "I123:4", "   "] = [] ∧
    getImagesBatches ["", "undefined", "null", "I123:4", "   "] = [] := by
  have h := getImages_empty_after_filter ("") (fun _ => "") sampleCredentials
    ["", "undefined", "null", "I123:4", "   "] (by decide)
  exact ⟨by decide, h.1, h.2⟩

/-! ## Color normalization lemmas -/

set_option maxRecDepth 4000 in
theorem padStart2_base16_eq_specHexPair :
    ∀ n, n < 256 → padStart2 (jsToStringBase16 n) = specHexPair n := by
  decide

set_option maxRecDepth 4000 in
theorem specHexPair_isLowerHexPair : ∀ n, n < 256 → isLowerHexPair (specHexPair n) = true := by
  decide

theorem jsRound_eq (q : ℚ) (n : ℤ) (h1 : (n : ℚ) ≤ q + 1 / 2) (h2 : q + 1 / 2 < n + 1) :
    jsRound q = n :=
  Int.floor_eq_iff.mpr ⟨h1, h2⟩

theorem jsRound_channel_lt (q : ℚ) (_h0 : 0 ≤ q) (h1 : q ≤ 1) :
    (jsRound (q * 255)).toNat < 256 := by
  have hle : jsRound (q * 255) < 256 := by
    unfold jsRound
    rw [Int.floor_lt]
    push_cast
    linarith
  omega

/-- C3: on channels in `[0,1]`, `rgbaToHex` renders `#rrggbb` with each
channel equal to `round(channel * 255)` written as two lowercase
zero-padded hex digits; the alpha channel is ignored; and the color
`{r:1, g:0, b:0, a:1}` normalizes to `#ff0000`. -/
theorem rgbaToHex_spec (c : FigmaColor)
    (hr0 : 0 ≤ c.r) (hr1 : c.r ≤ 1) (hg0 : 0 ≤ c.g) (hg1 : c.g ≤ 1)
    (hb0 : 0 ≤ c.b) (hb1 : c.b ≤ 1) :
    (rgbaToHex c = "#" ++ ⟨specHexPair (jsRound (c.r * 255)).toNat⟩ ++
      ⟨specHexPair (jsRound (c.g * 255)).toNat⟩ ++
      ⟨specHexPair (jsRound (c.b * 255)).toNat⟩) ∧
    isLowerHexPair (specHexPair (jsRound (c.r * 255)).toNat) = true ∧
    isLowerHexPair (specHexPair (jsRound (c.g * 255)).toNat) = true ∧
    isLowerHexPair (specHexPair (jsRound (c.b * 255)).toNat) = true ∧
    (∀ a', rgbaToHex { c with a := a' } = rgbaToHex c) ∧
    rgbaToHex ⟨1, 0, 0, 1⟩ = "#ff0000" := by
  refine ⟨?_, specHexPair_isLowerHexPair _ (jsRound_channel_lt _ hr0 hr1),
    specHexPair_isLowerHexPair _ (jsRound_channel_lt _ hg0 hg1),
    specHexPair_isLowerHexPair _ (jsRound_channel_lt _ hb0 hb1),
    fun _ => rfl, ?_⟩
  · unfold rgbaToHex
    dsimp only
    rw [padStart2_base16_eq_specHexPair _ (jsRound_channel_lt _ hr0 hr1),
      padStart2_base16_eq_specHexPair _ (jsRound_channel_lt _ hg0 hg1),
      padStart2_base16_eq_specHexPair _ (jsRound_channel_lt _ hb0 hb1)]
  · have h255 : jsRound ((1 : ℚ) * 255) = 255 := jsRound_eq _ _ (by norm_num) (by norm_num)
    have hz : jsRound ((0 : ℚ) * 255) = 0 := jsRound_eq _ _ (by norm_num) (by norm_num)
    unfold rgbaToHex
    dsimp only
    rw [h255, hz]
    decide

/-- Witness for C3: the bounds hold at `{r:1, g:0, b:0, a:1}`, which
normalizes to `#ff0000`. -/
theorem rgbaToHex_spec_witness :
    (0 ≤ (⟨1, 0, 0, 1⟩ : FigmaColor).r ∧ (⟨1, 0, 0, 1⟩ : FigmaColor).r ≤ 1) ∧
    rgbaToHex ⟨1, 0, 0, 1⟩ = "#ff0000" :=
  ⟨⟨by decide, by decide⟩,
    (rgbaToHex_spec ⟨1, 0, 0, 1⟩ (by decide) (by decide) (by decide) (by decide)
      (by decide) (by decide)).2.2.2.2.2⟩

/-! ## Typography normalization -/

/-- C7 counterexample: on a style with no recognizable typography fields
the code returns the short fixed fallback
`'font-family: Arial; font-size: 16px;'`, not the canonical shorthand
built from the defaults Arial / 16px / 400 / normal that the claim
describes. -/
theorem extractTextValue_counterexample :
    extractTextValue emptyStyleObj ≠ specCanonicalDefaultTypography ∧
    extractTextValue emptyStyleObj = "font-family: Arial; font-size: 16px;" :=
  ⟨by decide, by decide⟩

/-- C7 (amended): when no typography field (`fontFamily`, `fontSize`,
`fontWeight`) is present directly, under `style`, or under `typeStyle`,
`extractTextValue` returns (it is total, hence never throws) the fixed
fallback string `'font-family: Arial; font-size: 16px;'`. -/
theorem extractTextValue_fallback (s : StyleObj)
    (hd1 : s.direct.fontFamily = none) (hd2 : s.direct.fontSize = none)
    (hd3 : s.direct.fontWeight = none)
    (hs : ∀ st, s.style = some st →
      st.fontFamily = none ∧ st.fontSize = none ∧ st.fontWeight = none)
    (ht : ∀ ts, s.typeStyle = some ts →
      ts.fontFamily = none ∧ ts.fontSize = none ∧ ts.fontWeight = none) :
    extractTextValue s = "font-family: Arial; font-size: 16px;" := by
  have hfalse : ∀ f : TextStyleFields, f.fontFamily = none → f.fontSize = none →
      f.fontWeight = none → hasTypoFields f = false := by
    intro f h1 h2 h3
    simp [hasTypoFields, truthyStr, truthyNum, h1, h2, h3]
  have hdirect : hasTypoFields s.direct = false := hfalse _ hd1 hd2 hd3
  unfold extractTextValue
  rw [hdirect]
  simp only [Bool.false_eq_true, if_false]
  cases hstyle : s.style with
  | none =>
    cases hts : s.typeStyle with
    | none => rfl
    | some ts =>
      obtain ⟨h1, h2, h3⟩ := ht ts hts
      dsimp only
      rw [hfalse ts h1 h2 h3]
      simp
  | some st =>
    obtain ⟨h1, h2, h3⟩ := hs st hstyle
    dsimp only
    rw [hfalse st h1 h2 h3]
    simp only [Bool.false_eq_true, if_false]
    cases hts : s.typeStyle with
    | none => rfl
    | some ts =>
      obtain ⟨h1', h2', h3'⟩ := ht ts hts
      dsimp only
      rw [hfalse ts h1' h2' h3']
      simp

/-- Witness for C7 (amended) at the all-absent style object. -/
theorem extractTextValue_fallback_witness :
    emptyStyleObj.direct.fontFamily = none ∧
    extractTextValue emptyStyleObj = "font-family: Arial; font-size: 16px;" :=
  ⟨rfl, extractTextValue_fallback emptyStyleObj rfl rfl rfl
    (fun _ h => nomatch h) (fun _ h => nomatch h)⟩

/-! ## Artboard extraction -/

mutual
theorem extractArtboards_decomp : ∀ n : FigmaNode,
    extractArtboards n = ((nodesOf n).filter isArtboardNode).map toProcessedArtboard
  | .mk i nm ty bb bg fl cs => by
    rw [extractArtboards.eq_def, nodesOf.eq_def]
    dsimp only
    cases cs with
    | none =>
      cases h : isArtboardNode (FigmaNode.mk i nm ty bb bg fl none) <;>
        simp [List.filter_cons, h]
    | some l =>
      cases h : isArtboardNode (FigmaNode.mk i nm ty bb bg fl (some l)) <;>
        simp [List.filter_cons, h, extractArtboardsList_decomp l]

theorem extractArtboardsList_decomp : ∀ l : List FigmaNode,
    extractArtboardsList l = ((nodesOfList l).filter isArtboardNode).map toProcessedArtboard
  | [] => rfl
  | c :: cs => by
    rw [extractArtboardsList.eq_def, nodesOfList.eq_def]
    dsimp only
    rw [List.filter_append, List.map_append,
      extractArtboards_decomp c, extractArtboardsList_decomp cs]
end

theorem countP_id_unique (l : List FigmaNode) (n : FigmaNode) (p : FigmaNode → Bool)
    (hnodup : (l.map FigmaNode.id).Nodup) (hmem : n ∈ l) :
    l.countP (fun m => (m.id == n.id) && p m) = if p n then 1 else 0 := by
  induction l with
  | nil => cases hmem
  | cons h t ih =>
    rw [List.map_cons, List.nodup_cons] at hnodup
    rcases List.mem_cons.mp hmem with heq | hmemt
    · subst heq
      rw [List.countP_cons]
      have ht0 : t.countP (fun m => (m.id == n.id) && p m) = 0 := by
        rw [List.countP_eq_zero]
        intro m hm
        have hne : m.id ≠ n.id := by
          intro he
          exact hnodup.1 (he ▸ List.mem_map_of_mem FigmaNode.id hm)
        simp [hne]
      rw [ht0]
      cases hp : p n <;> simp [hp]
    · have hne : h.id ≠ n.id := by
        intro he
        exact hnodup.1 (he.symm ▸ List.mem_map_of_mem FigmaNode.id hmemt)
      rw [List.countP_cons]
      have hfalse : ((h.id == n.id) && p h) = false := by simp [hne]
      rw [hfalse, ih hnodup.2 hmemt]
      simp

/-- C2: in a design file with unique node IDs, every FRAME node carrying a
bounding box contributes exactly one entry to the artboard list produced by
`extractArtboards`, and every FRAME node without a bounding box contributes
none. -/
theorem extractArtboards_frame_unique (root n : FigmaNode)
    (hnodup : ((nodesOf root).map FigmaNode.id).Nodup)
    (hmem : n ∈ nodesOf root) :
    (n.type = "FRAME" → n.absoluteBoundingBox.isSome = true →
      (extractArtboards root).countP (fun a => a.id == n.id) = 1) ∧
    (n.type = "FRAME" → n.absoluteBoundingBox = none →
      (extractArtboards root).countP (fun a => a.id == n.id) = 0) := by
  have hkey : (extractArtboards root).countP (fun a => a.id == n.id) =
      if isArtboardNode n then 1 else 0 := by
    rw [extractArtboards_decomp root, List.countP_map]
    have hcomp : ((fun a : ProcessedArtboard => a.id == n.id) ∘ toProcessedArtboard) =
        fun m : FigmaNode => m.id == n.id := rfl
    rw [hcomp, List.countP_filter]
    exact countP_id_unique _ _ _ hnodup hmem
  constructor
  · intro hty hbb
    rw [hkey]
    have : isArtboardNode n = true := by
      unfold isArtboardNode
      rw [hty, hbb]
      rfl
    rw [this]
    rfl
  · intro hty hbb
    rw [hkey]
    have : isArtboardNode n = false := by
      unfold isArtboardNode
      rw [hty, hbb]
      rfl
    rw [this]
    rfl

/-- Witness for C2: a FRAME root with a bounding box appears exactly once
in the artboard list; its boxless FRAME child appears zero times. -/
theorem extractArtboards_frame_unique_witness :
    ((nodesOf witnessRootNode).map FigmaNode.id).Nodup ∧
    witnessRootNode ∈ nodesOf witnessRootNode ∧
    (extractArtboards witnessRootNode).countP
      (fun a => a.id == witnessRootNode.id) = 1 ∧
    (extractArtboards witnessRootNode).countP
      (fun a => a.id == witnessChildNode.id) = 0 := by
  have hlist : nodesOf witnessRootNode = [witnessRootNode, witnessChildNode] := rfl
  have hmem1 : witnessRootNode ∈ nodesOf witnessRootNode := by
    rw [hlist]
    exact List.mem_cons_self _ _
  have hmem2 : witnessChildNode ∈ nodesOf witnessRootNode := by
    rw [hlist]
    exact List.mem_cons_of_mem _ (List.mem_cons_self _ _)
  refine ⟨by decide, hmem1, ?_, ?_⟩
  · exact (extractArtboards_frame_unique witnessRootNode witnessRootNode
      (by decide) hmem1).1 rfl rfl
  · exact (extractArtboards_frame_unique witnessRootNode witnessChildNode
      (by decide) hmem2).2 rfl rfl

/-! ## Component merging -/

theorem foldl_merge_filter (k : String) :
    ∀ (nodeComponents acc : List FigmaComponent),
    acc.any (fun c => c.key == k) = true →
    (mergeNodeComponents acc nodeComponents).filter (fun c => c.key == k) =
      acc.filter (fun c => c.key == k)
  | [], _, _ => rfl
  | nc :: ncs, acc, hany => by
    unfold mergeNodeComponents
    rw [List.foldl_cons]
    cases hstep : acc.any (fun c => c.key == nc.key) with
    | true =>
      rw [if_pos rfl]
      exact foldl_merge_filter k ncs acc hany
    | false =>
      rw [if_neg Bool.false_ne_true]
      have hkne : nc.key ≠ k := by
        intro he
        rw [he] at hstep
        rw [hstep] at hany
        exact Bool.false_ne_true hany
      have hany' : (acc ++ [nc]).any (fun c => c.key == k) = true := by
        rw [List.any_append, hany]
        rfl
      have hrec := foldl_merge_filter k ncs (acc ++ [nc]) hany'
      unfold mergeNodeComponents at hrec
      rw [hrec, List.filter_append]
      have hnc : [nc].filter (fun c => c.key == k) = [] := by
        simp [hkne]
      rw [hnc, List.append_nil]

/-- C6: when a dedicated-endpoint component and a tree-discovered component
share a key (and the endpoint lists that key once), the merged component
list contains exactly one entry for that key, and the entries with that key
are exactly the normalized dedicated-endpoint ones — first occurrence wins. -/
theorem extractComponents_dedup_first_wins (apiComponents : List ApiComponent)
    (fileData : FigmaFileResponse) (k : String)
    (hapi : apiComponents.countP (fun c => c.key == k) = 1)
    (_hnode : ∃ nc ∈ extractComponentsFromNodes fileData.document, nc.key = k) :
    ((extractComponents (some ⟨some ⟨some apiComponents⟩⟩) fileData).countP
      (fun c => c.key == k) = 1) ∧
    ((extractComponents (some ⟨some ⟨some apiComponents⟩⟩) fileData).filter
      (fun c => c.key == k) =
      (apiComponents.map apiComponentToFigmaComponent).filter
        (fun c => c.key == k)) := by
  have hmapcount : (apiComponents.map apiComponentToFigmaComponent).countP
      (fun c => c.key == k) = 1 := by
    rw [List.countP_map]
    exact hapi
  have hany : (apiComponents.map apiComponentToFigmaComponent).any
      (fun c => c.key == k) = true := by
    rw [List.any_eq_true]
    have hpos : 0 < (apiComponents.map apiComponentToFigmaComponent).countP
        (fun c => c.key == k) := by rw [hmapcount]; exact Nat.one_pos
    obtain ⟨x, hx, hpx⟩ := List.countP_pos_iff.mp hpos
    exact ⟨x, hx, hpx⟩
  have hfilter : (extractComponents (some ⟨some ⟨some apiComponents⟩⟩) fileData).filter
      (fun c => c.key == k) =
      (apiComponents.map apiComponentToFigmaComponent).filter (fun c => c.key == k) := by
    unfold extractComponents
    exact foldl_merge_filter k (extractComponentsFromNodes fileData.document)
      (apiComponents.map apiComponentToFigmaComponent) hany
  refine ⟨?_, hfilter⟩
  rw [List.countP_eq_length_filter, hfilter, ← List.countP_eq_length_filter]
  exact hmapcount

/-- Witness for C6: the endpoint component `key-1` and the COMPONENT node
with id `key-1` merge to a single entry, the endpoint version. -/
theorem extractComponents_dedup_first_wins_witness :
    (witnessApiComponents.countP (fun c => c.key == "key-1") = 1) ∧
    (∃ nc ∈ extractComponentsFromNodes witnessComponentsFile.document,
      nc.key = "key-1") ∧
    ((extractComponents (some ⟨some ⟨some witnessApiComponents⟩⟩)
      witnessComponentsFile).countP (fun c => c.key == "key-1") = 1) := by
  have hlist : extractComponentsFromNodes witnessComponentsFile.document =
      [{ key := "key-1"
         name := "Button"
         description := ""
         documentationLinks := []
         id := some ("key-1")
         thumbnail := some ("")
         variants := none
         properties := some [] }] := by decide
  have hnode : ∃ nc ∈ extractComponentsFromNodes witnessComponentsFile.document,
      nc.key = "key-1" := by
    rw [hlist]
    exact ⟨_, List.mem_cons_self _ _, rfl⟩
  exact ⟨by decide, hnode,
    (extractComponents_dedup_first_wins witnessApiComponents witnessComponentsFile
      ("key-1") (by decide) hnode).1⟩

/-! ## Page artboard fetching -/

/-- C9: `fetchPageArtboards` never propagates an error: it always resolves
with `.ok`, and resolves with the empty artboard list whenever the file
fetch fails, the page is not found, the page has no children, or the
thumbnail fetch fails. -/
theorem fetchPageArtboards_no_error
    (fileResult : Except FigmaApiError FigmaFileResponse)
    (imagesResult : Except FigmaApiError (List (String × String)))
    (pageId : String) :
    (∃ l, fetchPageArtboards fileResult imagesResult pageId = .ok l) ∧
    (∀ e, fileResult = .error e →
      fetchPageArtboards fileResult imagesResult pageId = .ok []) ∧
    (∀ fd, fileResult = .ok fd → findPageById fd.document pageId = none →
      fetchPageArtboards fileResult imagesResult pageId = .ok []) ∧
    (∀ fd page, fileResult = .ok fd → findPageById fd.document pageId = some page →
      page.children = none →
      fetchPageArtboards fileResult imagesResult pageId = .ok []) ∧
    (∀ e, imagesResult = .error e →
      fetchPageArtboards fileResult imagesResult pageId = .ok []) := by
  cases fileResult with
  | error e =>
    refine ⟨⟨[], rfl⟩, fun _ _ => rfl, ?_, ?_, fun _ _ => rfl⟩
    · intro fd h _
      cases h
    · intro fd page h _ _
      cases h
  | ok fd =>
    refine ⟨?_, fun e h => ?impossible, ?_, ?_, ?_⟩
    case impossible => cases h
    · unfold fetchPageArtboards
      dsimp only
      cases hfind : findPageById fd.document pageId with
      | none => exact ⟨[], rfl⟩
      | some page =>
        dsimp only
        cases hch : page.children with
        | none => exact ⟨[], rfl⟩
        | some children =>
          dsimp only
          split
          · cases imagesResult with
            | error _ => exact ⟨[], rfl⟩
            | ok images => exact ⟨_, rfl⟩
          · exact ⟨_, rfl⟩
    · intro fd' hfd hnone
      cases hfd
      unfold fetchPageArtboards
      dsimp only
      rw [hnone]
    · intro fd' page hfd hfound hch
      cases hfd
      unfold fetchPageArtboards
      dsimp only
      rw [hfound]
      dsimp only
      rw [hch]
    · intro e himg
      cases himg
      unfold fetchPageArtboards
      dsimp only
      cases hfind : findPageById fd.document pageId with
      | none => rfl
      | some page =>
        dsimp only
        cases hch : page.children with
        | none => rfl
        | some children =>
          dsimp only
          split
          · rfl
          · rename_i hlen
            have : (children.filterMap _).length = 0 := Nat.eq_zero_of_not_pos hlen
            rw [List.length_eq_zero] at this
            rw [this]

/-- Witness for C9: at a failed file fetch, the call resolves `.ok []`. -/
theorem fetchPageArtboards_no_error_witness :
    fetchPageArtboards (.error sampleApiError) (.ok []) ("1:2") = .ok [] ∧
    (∃ l, fetchPageArtboards (.error sampleApiError) (.ok []) ("1:2") = .ok l) :=
  ⟨(fetchPageArtboards_no_error (.error sampleApiError) (.ok []) ("1:2")).2.1
      sampleApiError rfl,
    (fetchPageArtboards_no_error (.error sampleApiError) (.ok []) ("1:2")).1⟩

/-! ## Persistence lemmas: base64 and XOR -/

theorem b64DecodeChar_b64Char : ∀ n, n < 64 → b64DecodeChar (b64Char n) = some n := by
  decide

theorem b64Char_beq_61 : ∀ n, n < 64 → (b64Char n == 61) = false := by
  decide

theorem b64Encode_ne_nil : ∀ l : List Nat, l ≠ [] → b64Encode l ≠ []
  | [], h => absurd rfl h
  | [_], _ => by simp [b64Encode]
  | [_, _], _ => by simp [b64Encode]
  | _ :: _ :: _ :: _, _ => by simp [b64Encode]

theorem b64Decode_b64Encode : ∀ l : List Nat, (∀ c ∈ l, c < 256) →
    b64Decode (b64Encode l) = some l
  | [], _ => rfl
  | [x], h => by
    have hx : x < 256 := h x (by simp)
    rw [b64Encode, b64Decode]
    rw [if_pos (by simp)]
    rw [if_pos (by simp)]
    rw [b64DecodeChar_b64Char _ (by omega), b64DecodeChar_b64Char _ (by omega)]
    dsimp only [Option.bind, Option.map]
    have : x / 4 * 4 + x % 4 * 16 / 16 = x := by omega
    rw [this]
  | [x, y], h => by
    have hx : x < 256 := h x (by simp)
    have hy : y < 256 := h y (by simp)
    rw [b64Encode, b64Decode]
    rw [if_pos (by simp)]
    rw [if_neg (by rw [b64Char_beq_61 _ (by omega)]; exact Bool.false_ne_true)]
    rw [b64DecodeChar_b64Char _ (by omega), b64DecodeChar_b64Char _ (by omega),
      b64DecodeChar_b64Char _ (by omega)]
    dsimp only [Option.bind, Option.map]
    have h1 : x / 4 * 4 + (x % 4 * 16 + y / 16) / 16 = x := by omega
    have h2 : (x % 4 * 16 + y / 16) % 16 * 16 + y % 16 * 4 / 4 = y := by omega
    rw [h1, h2]
  | x :: y :: z :: rest, h => by
    have hx : x < 256 := h x (by simp)
    have hy : y < 256 := h y (by simp)
    have hz : z < 256 := h z (by simp)
    have ih := b64Decode_b64Encode rest (fun c hc =>
      h c (List.mem_cons_of_mem _ (List.mem_cons_of_mem _ (List.mem_cons_of_mem _ hc))))
    rw [b64Encode, b64Decode]
    rw [if_neg (by
      rw [b64Char_beq_61 _ (by omega), Bool.and_false]
      exact Bool.false_ne_true)]
    rw [b64DecodeChar_b64Char _ (by omega), b64DecodeChar_b64Char _ (by omega),
      b64DecodeChar_b64Char _ (by omega), b64DecodeChar_b64Char _ (by omega), ih]
    dsimp only [Option.bind, Option.map]
    have h1 : x / 4 * 4 + (x % 4 * 16 + y / 16) / 16 = x := by omega
    have h2 : (x % 4 * 16 + y / 16) % 16 * 16 + (y % 16 * 4 + z / 64) / 4 = y := by omega
    have h3 : (y % 16 * 4 + z / 64) % 4 * 64 + z % 64 = z := by omega
    rw [h1, h2, h3]

theorem xorWithKeyAux_involutive (key : List Nat) : ∀ (i : Nat) (l : List Nat),
    xorWithKeyAux key i (xorWithKeyAux key i l) = l
  | _, [] => rfl
  | i, c :: cs => by
    rw [xorWithKeyAux, xorWithKeyAux]
    rw [xorWithKeyAux_involutive key (i + 1) cs]
    rw [Nat.xor_assoc, Nat.xor_self, Nat.xor_zero]

theorem xorWithKey_involutive (key data : List Nat) :
    xorWithKey key (xorWithKey key data) = data :=
  xorWithKeyAux_involutive key 0 data

theorem xorWithKeyAux_lt_256 (key : List Nat) (hkey : ∀ k ∈ key, k < 256) :
    ∀ (i : Nat) (l : List Nat), (∀ c ∈ l, c < 256) →
    ∀ c ∈ xorWithKeyAux key i l, c < 256
  | _, [], _ => by intro c hc; cases hc
  | i, c :: cs, h => by
    intro d hd
    rw [xorWithKeyAux] at hd
    rcases List.mem_cons.mp hd with hd | hd
    · subst hd
      have hc : c < 256 := h c (List.mem_cons_self _ _)
      have hk : (key.get? (i % key.length)).getD 0 < 256 := by
        cases hg : key.get? (i % key.length) with
        | none => simp
        | some v =>
          have := hkey v (List.get?_mem hg)
          simpa using this
      exact Nat.xor_lt_two_pow (n := 8) hc hk
    · exact xorWithKeyAux_lt_256 key hkey (i + 1) cs
        (fun e he => h e (List.mem_cons_of_mem _ he)) d hd

theorem encryptionKeyCodes_lt_256 : ∀ k ∈ encryptionKeyCodes, k < 256 := by
  decide

theorem xorWithKey_ne_nil (key : List Nat) : ∀ l : List Nat, l ≠ [] →
    xorWithKey key l ≠ []
  | [], h => absurd rfl h
  | _ :: _, _ => by simp [xorWithKey, xorWithKeyAux]

/-- Round trip of the encryption layer on Latin-1 data. -/
theorem decryptData_encryptData (data : List Nat) (h : ∀ c ∈ data, c < 256) :
    encryptData data = some (b64Encode (xorWithKey encryptionKeyCodes data)) ∧
    decryptData (b64Encode (xorWithKey encryptionKeyCodes data)) = some data := by
  have hx : ∀ c ∈ xorWithKey encryptionKeyCodes data, c < 256 :=
    xorWithKeyAux_lt_256 encryptionKeyCodes encryptionKeyCodes_lt_256 0 data h
  constructor
  · unfold encryptData jsBtoa
    rw [if_pos ?_]
    rw [List.all_eq_true]
    intro c hc
    simpa using hx c hc
  · unfold decryptData jsAtob
    rw [b64Decode_b64Encode _ hx]
    dsimp only [Option.map]
    rw [xorWithKey_involutive]

/-! ## Persistence lemmas: the JSON serializer round-trips through the parser -/

theorem litMatches_append_self : ∀ lit rest : List Nat, litMatches lit (lit ++ rest) = true
  | [], _ => rfl
  | p :: ps, rest => by
    rw [List.cons_append, litMatches]
    rw [litMatches_append_self ps rest]
    simp

theorem pLit_self (lit rest : List Nat) : pLit lit (lit ++ rest) = some rest := by
  unfold pLit
  rw [if_pos (litMatches_append_self lit rest)]
  rw [List.drop_left]

theorem pLit_refl (lit : List Nat) : pLit lit lit = some [] := by
  have h := pLit_self lit []
  rwa [List.append_nil] at h

theorem hexVal_hexDigitCode : ∀ d, d < 16 → hexVal (hexDigitCode d) = some d := by
  decide

theorem escapeJson_nil : escapeJson [] = [] := rfl

theorem escapeJson_cons (c : Nat) (cs : List Nat) :
    escapeJson (c :: cs) = escapeJsonChar c ++ escapeJson cs := by
  simp [escapeJson]

theorem pStringAux_quote (l : List Nat) : pStringAux (34 :: l) = some ([], l) := by
  rw [pStringAux.eq_def]
  dsimp only
  rw [if_pos rfl]

theorem pStringAux_cons_plain (c : Nat) (h34 : c ≠ 34) (h92 : c ≠ 92) (l : List Nat) :
    pStringAux (c :: l) = (pStringAux l).map (fun p => (c :: p.1, p.2)) := by
  rw [pStringAux.eq_def]
  dsimp only
  rw [if_neg h34, if_neg h92]

theorem pStringAux_simple_escape (e : Nat) (he : e ≠ 117) (l : List Nat) :
    pStringAux (92 :: e :: l) =
      (simpleEscape e).bind (fun v => (pStringAux l).map (fun p => (v :: p.1, p.2))) := by
  rw [pStringAux.eq_def]
  dsimp only
  rw [if_neg (by omega : ¬(92 : Nat) = 34), if_pos rfl, if_neg he]

theorem pStringAux_u_escape (h1 h2 h3 h4 : Nat) (l : List Nat) :
    pStringAux (92 :: 117 :: h1 :: h2 :: h3 :: h4 :: l) =
      ((hexVal h1).bind fun v1 =>
       (hexVal h2).bind fun v2 =>
       (hexVal h3).bind fun v3 =>
       (hexVal h4).bind fun v4 =>
       (pStringAux l).map fun p =>
         ((((v1 * 16 + v2) * 16 + v3) * 16 + v4) :: p.1, p.2)) := by
  rw [pStringAux.eq_def]
  dsimp only
  rw [if_neg (by omega : ¬(92 : Nat) = 34), if_pos rfl, if_pos rfl]

theorem pStringAux_escape : ∀ s rest : List Nat,
    pStringAux (escapeJson s ++ 34 :: rest) = some (s, rest)
  | [], rest => by
    rw [escapeJson_nil, List.nil_append, pStringAux_quote]
  | c :: cs, rest => by
    have ih := pStringAux_escape cs rest
    rw [escapeJson_cons, List.append_assoc]
    unfold escapeJsonChar
    by_cases h34 : c = 34
    · subst h34
      rw [if_pos rfl]
      simp only [List.cons_append, List.nil_append]
      rw [pStringAux_simple_escape 34 (by omega)]
      rw [(by decide : simpleEscape 34 = some 34)]
      dsimp only [Option.bind]
      rw [ih]
      rfl
    · rw [if_neg h34]
      by_cases h92 : c = 92
      · subst h92
        rw [if_pos rfl]
        simp only [List.cons_append, List.nil_append]
        rw [pStringAux_simple_escape 92 (by omega)]
        rw [(by decide : simpleEscape 92 = some 92)]
        dsimp only [Option.bind]
        rw [ih]
        rfl
      · rw [if_neg h92]
        by_cases h8 : c = 8
        · subst h8
          rw [if_pos rfl]
          simp only [List.cons_append, List.nil_append]
          rw [pStringAux_simple_escape 98 (by omega)]
          rw [(by decide : simpleEscape 98 = some 8)]
          dsimp only [Option.bind]
          rw [ih]
          rfl
        · rw [if_neg h8]
          by_cases h9 : c = 9
          · subst h9
            rw [if_pos rfl]
            simp only [List.cons_append, List.nil_append]
            rw [pStringAux_simple_escape 116 (by omega)]
            rw [(by decide : simpleEscape 116 = some 9)]
            dsimp only [Option.bind]
            rw [ih]
            rfl
          · rw [if_neg h9]
            by_cases h10 : c = 10
            · subst h10
              rw [if_pos rfl]
              simp only [List.cons_append, List.nil_append]
              rw [pStringAux_simple_escape 110 (by omega)]
              rw [(by decide : simpleEscape 110 = some 10)]
              dsimp only [Option.bind]
              rw [ih]
              rfl
            · rw [if_neg h10]
              by_cases h12 : c = 12
              · subst h12
                rw [if_pos rfl]
                simp only [List.cons_append, List.nil_append]
                rw [pStringAux_simple_escape 102 (by omega)]
                rw [(by decide : simpleEscape 102 = some 12)]
                dsimp only [Option.bind]
                rw [ih]
                rfl
              · rw [if_neg h12]
                by_cases h13 : c = 13
                · subst h13
                  rw [if_pos rfl]
                  simp only [List.cons_append, List.nil_append]
                  rw [pStringAux_simple_escape 114 (by omega)]
                  rw [(by decide : simpleEscape 114 = some 13)]
                  dsimp only [Option.bind]
                  rw [ih]
                  rfl
                · rw [if_neg h13]
                  by_cases hlt : c < 32
                  · rw [if_pos hlt]
                    simp only [List.cons_append, List.nil_append]
                    rw [pStringAux_u_escape]
                    rw [(by decide : hexVal 48 = some 0),
                      hexVal_hexDigitCode (c / 16) (by omega),
                      hexVal_hexDigitCode (c % 16) (by omega)]
                    dsimp only [Option.bind]
                    rw [ih]
                    dsimp only [Option.map]
                    have harith : ((0 * 16 + 0) * 16 + c / 16) * 16 + c % 16 = c := by
                      omega
                    rw [harith]
                  · rw [if_neg hlt]
                    rw [List.cons_append]
                    rw [pStringAux_cons_plain c h34 h92]
                    rw [List.nil_append, ih]
                    rfl

theorem pString_quote (s rest : List Nat) : pString (quoteJson s ++ rest) = some (s, rest) := by
  have hshape : quoteJson s ++ rest = 34 :: (escapeJson s ++ 34 :: rest) := by
    unfold quoteJson
    simp [List.cons_append, List.append_assoc]
  rw [hshape, pString]
  exact pStringAux_escape s rest

theorem pLit_accessToken_serverUrl (r : List Nat) :
    pLit litAccessToken (litServerUrl ++ r) = none := by
  have h1 : litAccessToken = 123 :: 34 :: 97 :: litAccessToken.drop 3 := by decide
  have h2 : litServerUrl = 123 :: 34 :: 115 :: litServerUrl.drop 3 := by decide
  unfold pLit
  rw [if_neg ?_]
  rw [h1, h2]
  simp [litMatches, List.cons_append]

theorem pLit_apiKey_projectId (r : List Nat) :
    pLit litApiKey (litProjectId ++ r) = none := by
  have h1 : litApiKey = 44 :: 34 :: 97 :: litApiKey.drop 3 := by decide
  have h2 : litProjectId = 44 :: 34 :: 112 :: litProjectId.drop 3 := by decide
  unfold pLit
  rw [if_neg ?_]
  rw [h1, h2]
  simp [litMatches, List.cons_append]

theorem pLit_true_false (r : List Nat) : pLit litTrue (litFalse ++ r) = none := by
  have h1 : litTrue = 116 :: litTrue.drop 1 := by decide
  have h2 : litFalse = 102 :: litFalse.drop 1 := by decide
  unfold pLit
  rw [if_neg ?_]
  rw [h1, h2]
  simp [litMatches, List.cons_append]

theorem pBool_true (r : List Nat) : pBool (litTrue ++ r) = some (true, r) := by
  unfold pBool
  rw [pLit_self]

theorem pBool_false (r : List Nat) : pBool (litFalse ++ r) = some (false, r) := by
  unfold pBool
  rw [pLit_true_false]
  rw [pLit_self]

theorem parseCredentials_serialize : ∀ (cred : StoredCredentials) (rest : List Nat),
    parseCredentials (serializeCredentials cred ++ rest) = some (cred, rest)
  | .figma accessToken fileId, rest => by
    unfold serializeCredentials parseCredentials
    simp only [List.append_assoc, pLit_self, pString_quote, Option.bind, Bind.bind]
    rfl
  | .mcp serverUrl (some apiKey) projectId, rest => by
    unfold serializeCredentials parseCredentials
    simp only [List.append_assoc, pLit_accessToken_serverUrl, pLit_self, pString_quote,
      pLit_apiKey_projectId, Option.bind, Bind.bind]
    rfl
  | .mcp serverUrl none projectId, rest => by
    unfold serializeCredentials parseCredentials
    simp only [List.append_assoc, List.nil_append, pLit_accessToken_serverUrl, pLit_self,
      pString_quote, pLit_apiKey_projectId, Option.bind, Bind.bind]
    rfl

theorem parseConn_serializeConn (c : StoredConnection) :
    parseConn (serializeConn c) = some c := by
  obtain ⟨ct, cred, ⟨nm, lm, ver⟩, lc, iv⟩ := c
  have hne : ¬(str2codes ("mcp") = str2codes ("figma")) := by decide
  have hiftrue : ∀ (x y : List Nat), (if true = true then x else y) = x :=
    fun x y => if_pos rfl
  have hiffalse : ∀ (x y : List Nat), (if false = true then x else y) = y :=
    fun x y => if_neg (by simp)
  cases ct <;> cases iv <;>
    (unfold parseConn serializeConn
     simp only [ConnectionType.toCodes, List.append_assoc, pLit_self, pString_quote,
       parseCredentials_serialize, hiftrue, hiffalse, pBool_true, pBool_false,
       pLit_refl, hne, eq_self_iff_true, if_true, if_false, ite_true, ite_false,
       List.isEmpty_nil, Option.bind, Bind.bind])

theorem serializeConn_ne_nil (c : StoredConnection) : serializeConn c ≠ [] := by
  unfold serializeConn
  rw [show litConnectionType = 123 :: litConnectionType.drop 1 from by decide]
  simp

/-- Storing a Latin-1-serializable connection and reading it back yields
the same connection without touching the slot. -/
theorem getStoredConnection_storeConnection (c : StoredConnection) (s : LocalStorage)
    (h : ∀ u ∈ serializeConn c, u < 256) :
    getStoredConnection (storeConnection c s) = (some c, storeConnection c s) := by
  obtain ⟨henc, hdec⟩ := decryptData_encryptData (serializeConn c) h
  have hstore : storeConnection c s =
      some (b64Encode (xorWithKey encryptionKeyCodes (serializeConn c))) := by
    unfold storeConnection
    rw [henc]
  rw [hstore]
  unfold getStoredConnection
  dsimp only
  rw [if_neg ?_]
  · rw [hdec]
    dsimp only
    rw [parseConn_serializeConn]
  · have hne := b64Encode_ne_nil _
      (xorWithKey_ne_nil encryptionKeyCodes _ (serializeConn_ne_nil c))
    simp [List.isEmpty_iff, hne]

/-! ## The persistence claims -/

set_option maxRecDepth 100000 in
set_option maxHeartbeats 4000000 in
/-- C4: a stored connection is reported valid exactly when its validity
flag is true and its last-connected timestamp lies less than 7 days in the
past; a false answer does not modify (in particular does not delete) the
stored record; and the concrete 8-days-old valid connection reports
false. -/
theorem hasValidStoredConnection_spec (dateValue : List Nat → ℚ) (now : ℚ)
    (s : LocalStorage) (c : StoredConnection)
    (hget : getStoredConnection s = (some c, s)) :
    ((hasValidStoredConnection dateValue now s).1 = true ↔
      (c.isValid = true ∧ now - dateValue c.lastConnected < 7 * (1000 * 3600 * 24))) ∧
    (hasValidStoredConnection dateValue now s).2 = s ∧
    (hasValidStoredConnection (fun _ => 0) (8 * (1000 * 3600 * 24))
      sampleStoredState).1 = false := by
  refine ⟨?_, ?_, ?_⟩
  · unfold hasValidStoredConnection
    rw [hget]
    dsimp only
    rw [Bool.and_eq_true, decide_eq_true_eq]
    constructor
    · rintro ⟨h1, h2⟩
      refine ⟨h1, ?_⟩
      rwa [div_lt_iff₀ (by norm_num)] at h2
    · rintro ⟨h1, h2⟩
      refine ⟨h1, ?_⟩
      rwa [div_lt_iff₀ (by norm_num)]
  · unfold hasValidStoredConnection
    rw [hget]
  · have hg : getStoredConnection sampleStoredState =
        (some sampleConnection, sampleStoredState) := by decide
    unfold hasValidStoredConnection
    rw [hg]
    dsimp only
    have hnot : ¬((8 * (1000 * 3600 * 24) : ℚ) - 0) / (1000 * 3600 * 24) < 7 := by
      norm_num
    rw [decide_eq_false hnot, Bool.and_false]

set_option maxRecDepth 100000 in
set_option maxHeartbeats 4000000 in
/-- Witness for C4: the sample stored state decodes to `sampleConnection`
and the validity check leaves the slot untouched. -/
theorem hasValidStoredConnection_spec_witness :
    getStoredConnection sampleStoredState = (some sampleConnection, sampleStoredState) ∧
    (hasValidStoredConnection (fun _ => 0) (8 * (1000 * 3600 * 24))
      sampleStoredState).2 = sampleStoredState :=
  ⟨by decide,
    (hasValidStoredConnection_spec (fun _ => 0) (8 * (1000 * 3600 * 24))
      sampleStoredState sampleConnection (by decide)).2.1⟩

set_option maxRecDepth 100000 in
set_option maxHeartbeats 4000000 in
/-- C5 counterexample: a `StoredConnection` whose file name contains the
code unit 0x0100 (outside Latin-1) makes `btoa` throw inside
`storeConnection`; nothing is written, and reading back yields `null`
instead of the stored field values. -/
theorem storeConnection_roundtrip_counterexample :
    (getStoredConnection (storeConnection nonLatin1Connection none)).1 = none ∧
    storeConnection nonLatin1Connection none = none := by
  exact ⟨by decide, by decide⟩

/-- C5 (amended): every `StoredConnection` whose JSON serialization
consists only of code units below 256 (Latin-1, the domain `btoa` accepts)
written with `storeConnection` and read back with `getStoredConnection`
reproduces the same `connectionType`, `credentials`, `fileInfo`,
`lastConnected` and `isValid` field values. -/
theorem storeConnection_roundtrip (connection : StoredConnection) (s : LocalStorage)
    (h : (serializeConn connection).all (fun u => decide (u < 256)) = true) :
    ∃ c', (getStoredConnection (storeConnection connection s)).1 = some c' ∧
      c'.connectionType = connection.connectionType ∧
      c'.credentials = connection.credentials ∧
      c'.fileInfo = connection.fileInfo ∧
      c'.lastConnected = connection.lastConnected ∧
      c'.isValid = connection.isValid := by
  have h' : ∀ u ∈ serializeConn connection, u < 256 := by
    intro u hu
    have := List.all_eq_true.mp h u hu
    simpa using this
  rw [getStoredConnection_storeConnection connection s h']
  exact ⟨connection, rfl, rfl, rfl, rfl, rfl, rfl⟩

set_option maxRecDepth 100000 in
set_option maxHeartbeats 4000000 in
/-- Witness for C5 (amended): the all-ASCII `sampleConnection` round-trips
through an empty slot. -/
theorem storeConnection_roundtrip_witness :
    ((serializeConn sampleConnection).all (fun u => decide (u < 256)) = true) ∧
    (∃ c', (getStoredConnection (storeConnection sampleConnection none)).1 = some c' ∧
      c'.connectionType = sampleConnection.connectionType ∧
      c'.credentials = sampleConnection.credentials ∧
      c'.fileInfo = sampleConnection.fileInfo ∧
      c'.lastConnected = sampleConnection.lastConnected ∧
      c'.isValid = sampleConnection.isValid) :=
  ⟨by decide, storeConnection_roundtrip sampleConnection none (by decide)⟩

/-- C10 (amended): on a slot holding a readable connection whose updated
record is Latin-1-serializable, `updateConnectionValidity b` keeps
`connectionType`, `credentials` and `fileInfo`, sets `isValid` to `b`, and
overwrites `lastConnected` with the current time exactly when `b` is
false; on an empty slot it leaves the store unchanged. -/
theorem updateConnectionValidity_spec (isValid : Bool) (nowIso : List Nat)
    (s : LocalStorage) (c : StoredConnection)
    (hget : getStoredConnection s = (some c, s))
    (hstorable : (serializeConn (updatedConnection c isValid nowIso)).all
        (fun u => decide (u < 256)) = true) :
    (∃ c', (getStoredConnection (updateConnectionValidity isValid nowIso s)).1 = some c' ∧
      c'.connectionType = c.connectionType ∧ c'.credentials = c.credentials ∧
      c'.fileInfo = c.fileInfo ∧ c'.isValid = isValid ∧
      c'.lastConnected = (if isValid then c.lastConnected else nowIso)) ∧
    updateConnectionValidity isValid nowIso none = none := by
  constructor
  · have hupd : updateConnectionValidity isValid nowIso s =
        storeConnection (updatedConnection c isValid nowIso) s := by
      unfold updateConnectionValidity updatedConnection
      rw [hget]
    have h' : ∀ u ∈ serializeConn (updatedConnection c isValid nowIso), u < 256 := by
      intro u hu
      have := List.all_eq_true.mp hstorable u hu
      simpa using this
    rw [hupd, getStoredConnection_storeConnection _ s h']
    exact ⟨_, rfl, rfl, rfl, rfl, rfl, rfl⟩
  · rfl

set_option maxRecDepth 100000 in
set_option maxHeartbeats 4000000 in
/-- Witness for C10 (amended): invalidating the sample stored connection
sets the flag to false and refreshes `lastConnected`. -/
theorem updateConnectionValidity_spec_witness :
    getStoredConnection sampleStoredState = (some sampleConnection, sampleStoredState) ∧
    (∃ c', (getStoredConnection
        (updateConnectionValidity false sampleNowIso sampleStoredState)).1 = some c' ∧
      c'.connectionType = sampleConnection.connectionType ∧
      c'.credentials = sampleConnection.credentials ∧
      c'.fileInfo = sampleConnection.fileInfo ∧ c'.isValid = false ∧
      c'.lastConnected = (if false then sampleConnection.lastConnected
        else sampleNowIso)) :=
  ⟨by decide,
    (updateConnectionValidity_spec false sampleNowIso sampleStoredState sampleConnection
      (by decide) (by decide)).1⟩

set_option maxRecDepth 100000 in
set_option maxHeartbeats 4000000 in
/-- C10 counterexample: a stored record whose JSON spells a non-Latin-1
file name via a `Ā` escape is read back fine, but invalidating it
fails inside `btoa` when re-storing: the slot is unchanged and the
validity flag stays `true` although `updateConnectionValidity false` was
called. -/
theorem updateConnectionValidity_counterexample :
    (getStoredConnection tamperedState).1 = some tamperedConnection ∧
    tamperedConnection.isValid = true ∧
    updateConnectionValidity false sampleNowIso tamperedState = tamperedState ∧
    ((getStoredConnection
        (updateConnectionValidity false sampleNowIso tamperedState)).1.map
      StoredConnection.isValid) = some true := by
  exact ⟨by decide, rfl, by decide, by decide⟩

end DsCopilot
